import Mathlib

/-!
Verification development for the inetstack TCP/IPv4 user-space network stack.

This file gives a shallow embedding, in Lean 4, of the parts of the stack that
the claims concern:

* the IPv4 header codec (`src/protocols/ipv4/datagram.rs`): header parsing,
  serialization and the ones-complement checksum;
* the initial-sequence-number generator (`src/protocols/tcp/isn_generator.rs`)
  together with a bitwise model of the CRC32-IEEE digest of the external
  `crc` crate;
* the passive-open socket (`src/protocols/tcp/passive_open.rs`): the
  `receive` dispatch for SYN and handshake-ACK segments, the ready queue,
  the accept poll, and the SYN+ACK retransmission background task.

Machine integers are modelled as `Nat` with explicit `% 2^w` reductions at the
points where the Rust code performs wrapping arithmetic (release semantics).
Fallible operations return `Except`; a Rust panic (a failed `expect`) is a
distinguished result constructor.  Code of the repository that is not under
`src/` (the `ControlBlock` constructor of `ctrlblk.rs`, the `TcpHeader`
record of `segment.rs`, the configuration getters of `TcpConfig`, the
`Ipv4Protocol` enum, and the `FALLBACK_MSS` constant) is modelled from the
specification; every such definition carries a doc comment saying so.
-/

namespace InetStack

set_option maxRecDepth 100000

/-- Error value: `Fail::new(errno, msg)` of the runtime crate, as used by the
sources under `src/`.  Carries the libc errno and the message string. -/
structure Fail where
  errno : Nat
  msg : String
  deriving DecidableEq, Repr

/-- libc errno `EBADMSG`. -/
def EBADMSG : Nat := 74

/-- libc errno `ENOTSUP` (= `EOPNOTSUPP`). -/
def ENOTSUP : Nat := 95

/-- libc errno `ECONNREFUSED`. -/
def ECONNREFUSED : Nat := 111

/-- libc errno `ETIMEDOUT`. -/
def ETIMEDOUT : Nat := 110

/-- An IPv4 endpoint: 32-bit address and 16-bit port (`Ipv4Endpoint`). -/
structure Endpoint where
  addr : Nat
  port : Nat
  deriving DecidableEq, Repr

/-! ## Buffers

The runtime `Buffer` trait exposes `len`, indexing, `adjust` (drop bytes from
the front) and `trim` (drop bytes from the back).  A buffer is modelled as a
length plus a byte function; bytes at indices at or beyond `len` are
irrelevant to every operation the code performs. -/

/-- A byte buffer: length and contents.  Models the runtime `Buffer` trait. -/
structure Buf where
  len : Nat
  byte : Nat → Nat

/-- Buffer `adjust`: drop `n` bytes from the front. -/
def Buf.adjust (b : Buf) (n : Nat) : Buf :=
  ⟨b.len - n, fun i => b.byte (i + n)⟩

/-- Buffer `trim`: drop `n` bytes from the back. -/
def Buf.trim (b : Buf) (n : Nat) : Buf :=
  ⟨b.len - n, b.byte⟩

/-- Big-endian 16-bit read at offset `i` (`NetworkEndian::read_u16`). -/
def readU16 (b : Nat → Nat) (i : Nat) : Nat :=
  b i * 256 + b (i + 1)

/-- Big-endian 32-bit read at offset `i` (`NetworkEndian::read_u32`). -/
def readU32 (b : Nat → Nat) (i : Nat) : Nat :=
  ((b i * 256 + b (i + 1)) * 256 + b (i + 2)) * 256 + b (i + 3)

/-! ## IPv4 header codec (`src/protocols/ipv4/datagram.rs`) -/

/-- Upper-layer protocol number carried in the IPv4 header.

Modelled from the spec: the `Ipv4Protocol` enum is not under `src/`.  Spec
section 6.1 fixes protocol 6 = TCP; the configuration surface (section 6.3)
names UDP as the only other upper-layer protocol of the stack. -/
inductive Ipv4Protocol
  | tcp
  | udp
  deriving DecidableEq, Repr

/-- Wire value of an `Ipv4Protocol` (`protocol as u8`). -/
def Ipv4Protocol.toNat : Ipv4Protocol → Nat
  | .tcp => 6
  | .udp => 17

/-- Conversion of a wire byte to `Ipv4Protocol` (`Ipv4Protocol::try_from`).

Modelled from the spec: the enum and its `TryFrom` impl are not under
`src/`; unrecognized protocol numbers are rejected with a well-typed
error per spec section 4.1. -/
def Ipv4Protocol.tryFrom (n : Nat) : Except Fail Ipv4Protocol :=
  if n = 6 then .ok .tcp
  else if n = 17 then .ok .udp
  else .error ⟨ENOTSUP, "unsupported protocol"⟩

/-- The IPv4 header record (`Ipv4Header`), all numeric fields as `Nat`. -/
structure Ipv4HeaderM where
  version : Nat
  ihl : Nat
  dscp : Nat
  ecn : Nat
  total_length : Nat
  identification : Nat
  flags : Nat
  fragment_offset : Nat
  ttl : Nat
  protocol : Ipv4Protocol
  header_checksum : Nat
  src_addr : Nat
  dst_addr : Nat
  deriving DecidableEq, Repr

/-- One step of the carry fold of `compute_checksum`, bounded by fuel so that
the definition is structural: the loop `while state > 0xffff { state -= 0xffff }`
runs at most `s` times because each iteration removes `0xffff ≥ 1`. -/
def foldCarryAux : Nat → Nat → Nat
  | 0, s => s
  | fuel + 1, s => if s > 0xffff then foldCarryAux fuel (s - 0xffff) else s

/-- The carry fold of `compute_checksum`: subtract `0xffff` while the
accumulator exceeds `0xffff`. -/
def foldCarry (s : Nat) : Nat :=
  foldCarryAux s s

/-- `Ipv4Header::compute_checksum`: sum the nine 16-bit big-endian words of
the 20-byte header other than the checksum word (bytes 10..12) into an
accumulator seeded at `0xffff`, fold carries, and return the ones
complement (for a folded state `s ≤ 0xffff` the complement is `0xffff - s`). -/
def computeChecksum (b : Nat → Nat) : Nat :=
  0xffff -
    foldCarry
      (0xffff + readU16 b 0 + readU16 b 2 + readU16 b 4 + readU16 b 6 +
        readU16 b 8 + readU16 b 12 + readU16 b 14 + readU16 b 16 + readU16 b 18)

/-- `Ipv4Header::parse`.  Checks are performed in the order of the source;
on success the 20-byte header is stripped from the front of the buffer and
the `buf.len - total_length` padding bytes are trimmed from the back. -/
def Ipv4Header.parse (buf : Buf) : Except Fail (Ipv4HeaderM × Buf) :=
  if buf.len < 20 then .error ⟨EBADMSG, "ipv4 datagram too small"⟩
  else if buf.byte 0 >>> 4 ≠ 4 then .error ⟨ENOTSUP, "unsupported IP version"⟩
  else if buf.byte 0 &&& 0xF < 5 then .error ⟨EBADMSG, "IPv4 IHL is too small"⟩
  else if buf.byte 0 &&& 0xF > 5 then .error ⟨ENOTSUP, "IPv4 options are not supported"⟩
  else if buf.byte 1 >>> 2 ≠ 0 then .error ⟨ENOTSUP, "ipv4 dscp is not supported"⟩
  else if readU16 buf.byte 2 < 20 then .error ⟨EBADMSG, "ipv4 datagram too small"⟩
  else if readU16 buf.byte 2 > buf.len then .error ⟨EBADMSG, "ipv4 datagram size mismatch"⟩
  else if readU16 buf.byte 6 &&& 0x1fff ≠ 0 then .error ⟨ENOTSUP, "IPv4 fragmentation is unsupported"⟩
  else
    match Ipv4Protocol.tryFrom (buf.byte 9) with
    | .error e => .error e
    | .ok protocol =>
      if readU16 buf.byte 10 = 0xffff then .error ⟨EBADMSG, "IPv4 checksum is 0xFFFF"⟩
      else if readU16 buf.byte 10 ≠ computeChecksum buf.byte then
        .error ⟨EBADMSG, "Invalid IPv4 checksum"⟩
      else
        .ok (⟨4, buf.byte 0 &&& 0xF, buf.byte 1 >>> 2, buf.byte 1 &&& 3,
              readU16 buf.byte 2, readU16 buf.byte 4,
              readU16 buf.byte 6 >>> 13, readU16 buf.byte 6 &&& 0x1fff,
              buf.byte 8, protocol, readU16 buf.byte 10,
              readU32 buf.byte 12, readU32 buf.byte 16⟩,
            (buf.adjust 20).trim (buf.len - readU16 buf.byte 2))

/-- The serialized header bytes of `Ipv4Header::serialize` before the final
checksum write (the checksum bytes 10 and 11 are never read by
`compute_checksum`, which skips that word).  The total-length word is
`20 + payload_len` computed in `u16` arithmetic, and the flags word is
`(flags as u16) << 13 | fragment_offset & 0x1fff` in `u16` arithmetic. -/
def serHdrByteNoCk (h : Ipv4HeaderM) (payload_len : Nat) : Nat → Nat
  | 0 => 0x45
  | 1 => ((h.dscp <<< 2) % 256) ||| (h.ecn &&& 3)
  | 2 => ((20 + payload_len) % 65536) / 256
  | 3 => ((20 + payload_len) % 65536) % 256
  | 4 => h.identification / 256
  | 5 => h.identification % 256
  | 6 => ((((h.flags <<< 13) % 65536) ||| (h.fragment_offset &&& 0x1fff)) / 256)
  | 7 => ((((h.flags <<< 13) % 65536) ||| (h.fragment_offset &&& 0x1fff)) % 256)
  | 8 => h.ttl
  | 9 => h.protocol.toNat
  | 10 => 0
  | 11 => 0
  | 12 => (h.src_addr >>> 24) % 256
  | 13 => (h.src_addr >>> 16) % 256
  | 14 => (h.src_addr >>> 8) % 256
  | 15 => h.src_addr % 256
  | 16 => (h.dst_addr >>> 24) % 256
  | 17 => (h.dst_addr >>> 16) % 256
  | 18 => (h.dst_addr >>> 8) % 256
  | _ => h.dst_addr % 256

/-- The 20 serialized header bytes of `Ipv4Header::serialize`, with the
checksum written last into bytes 10 and 11 (big-endian). -/
def serHdrByte (h : Ipv4HeaderM) (payload_len : Nat) (i : Nat) : Nat :=
  if i = 10 then computeChecksum (serHdrByteNoCk h payload_len) / 256
  else if i = 11 then computeChecksum (serHdrByteNoCk h payload_len) % 256
  else serHdrByteNoCk h payload_len i

/-- A serialized IPv4 datagram: the 20 header bytes produced by
`Ipv4Header::serialize h payload_len` followed by `payload_len` payload
bytes. -/
def serializeBuf (h : Ipv4HeaderM) (payload_len : Nat) (payload : Nat → Nat) : Buf :=
  ⟨20 + payload_len, fun i => if i < 20 then serHdrByte h payload_len i else payload (i - 20)⟩

/-- Validity of an IPv4 header record, following claim C2 and the field
widths of the wire format: version 4, IHL 5, DSCP 0, 2-bit ECN, 16-bit
total length and identification, 3-bit flags with the MF bit (bit 0 of the
flags field) clear, fragment offset 0, 8-bit TTL, 32-bit addresses. -/
def Ipv4HeaderM.valid (h : Ipv4HeaderM) : Prop :=
  h.version = 4 ∧ h.ihl = 5 ∧ h.dscp = 0 ∧ h.ecn < 4 ∧
    h.total_length < 65536 ∧ h.identification < 65536 ∧
    h.flags < 8 ∧ h.flags % 2 = 0 ∧ h.fragment_offset = 0 ∧
    h.ttl < 256 ∧ h.src_addr < 4294967296 ∧ h.dst_addr < 4294967296

instance (h : Ipv4HeaderM) : Decidable h.valid := by
  unfold Ipv4HeaderM.valid; infer_instance

/-- Equality of two headers on the twelve canonical fields named by claim C2
(everything except the checksum field). -/
def canonicalFieldsEq (h k : Ipv4HeaderM) : Prop :=
  k.version = h.version ∧ k.ihl = h.ihl ∧ k.dscp = h.dscp ∧ k.ecn = h.ecn ∧
    k.total_length = h.total_length ∧ k.identification = h.identification ∧
    k.flags = h.flags ∧ k.fragment_offset = h.fragment_offset ∧
    k.ttl = h.ttl ∧ k.protocol = h.protocol ∧
    k.src_addr = h.src_addr ∧ k.dst_addr = h.dst_addr

/-- Claim C2 as stated: parsing a serialized valid header followed by its
payload succeeds, returns a header equal on the canonical fields, and
returns the payload unchanged. -/
def RoundtripOk (h : Ipv4HeaderM) (payload_len : Nat) (payload : Nat → Nat) : Prop :=
  match Ipv4Header.parse (serializeBuf h payload_len payload) with
  | .ok (k, p) => canonicalFieldsEq h k ∧ p.len = payload_len ∧ ∀ i, p.byte i = payload i
  | .error _ => False

/-- The `total_length` field of a successful parse, for concrete evaluation. -/
def parsedTotalLength (buf : Buf) : Option Nat :=
  match Ipv4Header.parse buf with
  | .ok (k, _) => some k.total_length
  | .error _ => none

/-! ## CRC32 and the ISN generator (`src/protocols/tcp/isn_generator.rs`)

The generator hashes the connection 4-tuple and a per-stack nonce with the
CRC32-IEEE digest of the external `crc` crate (version 1.x).  That digest is
table-driven; the table entry for index `i` is the result of eight
single-bit steps applied to `i` (polynomial `0xEDB88320`, reflected), and
each `write` call complements the running value, folds the bytes through the
table, and complements again.  `Hasher::write_u32`/`write_u16` feed the
native-endian (little-endian) bytes of the value. -/

/-- One single-bit step of the reflected CRC32-IEEE computation. -/
def crc32Round (x : Nat) : Nat :=
  if x % 2 = 1 then (x / 2) ^^^ 0xEDB88320 else x / 2

/-- A CRC32 table entry: eight single-bit steps applied to the index
(`crc32::make_table` of the `crc` crate). -/
def crc32Table (i : Nat) : Nat :=
  crc32Round (crc32Round (crc32Round (crc32Round
    (crc32Round (crc32Round (crc32Round (crc32Round i)))))))

/-- Fold one byte into the raw CRC32 state
(`value = table[(value as u8) ^ byte] ^ (value >> 8)`). -/
def crc32UpdateByte (s b : Nat) : Nat :=
  crc32Table ((s % 256) ^^^ (b % 256)) ^^^ (s / 256)

/-- Fold a byte list into the raw CRC32 state. -/
def crc32UpdateBytes (s : Nat) (bs : List Nat) : Nat :=
  bs.foldl crc32UpdateByte s

/-- 32-bit complement (`!value` on `u32`). -/
def comp32 (x : Nat) : Nat :=
  x ^^^ 0xFFFFFFFF

/-- One `Digest::write` call of the `crc` crate: complement the stored value,
fold the bytes, complement again. -/
def digestWrite (v : Nat) (bs : List Nat) : Nat :=
  comp32 (crc32UpdateBytes (comp32 v) bs)

/-- The one-shot CRC32-IEEE checksum of a byte list: the digest starts from
stored value `0` and `sum32` returns the stored value. -/
def crc32 (bs : List Nat) : Nat :=
  digestWrite 0 bs

/-- Little-endian bytes of a 32-bit value (`u32::to_ne_bytes` on x86). -/
def encodeU32 (n : Nat) : List Nat :=
  [n % 256, n / 256 % 256, n / 65536 % 256, n / 16777216 % 256]

/-- Little-endian bytes of a 16-bit value (`u16::to_ne_bytes` on x86). -/
def encodeU16 (n : Nat) : List Nat :=
  [n % 256, n / 256 % 256]

/-- `IsnGenerator`: per-stack 32-bit nonce and 16-bit wrapping counter. -/
structure IsnGenerator where
  nonce : Nat
  counter : Nat
  deriving DecidableEq, Repr

/-- `IsnGenerator::new`. -/
def IsnGenerator.new (nonce : Nat) : IsnGenerator :=
  ⟨nonce, 0⟩

/-- `IsnGenerator::generate` (the non-test build): stream the remote
address, remote port, local address, local port and nonce into a CRC32
digest, add the counter in wrapping `u32` arithmetic, and increment the
16-bit wrapping counter. -/
def IsnGenerator.generate (g : IsnGenerator) (localEp remoteEp : Endpoint) :
    Nat × IsnGenerator :=
  let v := digestWrite 0 (encodeU32 remoteEp.addr)
  let v := digestWrite v (encodeU16 remoteEp.port)
  let v := digestWrite v (encodeU32 localEp.addr)
  let v := digestWrite v (encodeU16 localEp.port)
  let v := digestWrite v (encodeU32 g.nonce)
  ((v + g.counter) % 4294967296, ⟨g.nonce, (g.counter + 1) % 65536⟩)

/-! ## Passive open (`src/protocols/tcp/passive_open.rs`) -/

/-- A recognized TCP option (`TcpOptions2`).

Modelled from the spec: `segment.rs` is not under `src/`.  Spec section 6.1
lists the recognized options: end-of-list, no-op, MSS, window scale. -/
inductive TcpOption2
  | endOfOptions
  | noOperation
  | maximumSegmentSize (m : Nat)
  | windowScale (w : Nat)
  deriving DecidableEq, Repr

/-- The parsed TCP header fields that `passive_open.rs` reads or writes.

Modelled from the spec: the `TcpHeader` record of `segment.rs` is not under
`src/`; the fields follow the wire format of spec section 6.1. -/
structure TcpHeaderM where
  src_port : Nat
  dst_port : Nat
  seq_num : Nat
  ack_num : Nat
  syn : Bool
  ack : Bool
  rst : Bool
  fin : Bool
  window_size : Nat
  options : List TcpOption2
  deriving DecidableEq, Repr

/-- `TcpHeader::new(src_port, dst_port)`.

Modelled from the spec: a fresh header has all flags clear, zero sequence
and acknowledgment numbers, zero window and no options. -/
def TcpHeaderM.new (src_port dst_port : Nat) : TcpHeaderM :=
  ⟨src_port, dst_port, 0, 0, false, false, false, false, 0, []⟩

/-- `TcpHeader::push_option`: append one option. -/
def TcpHeaderM.pushOption (h : TcpHeaderM) (o : TcpOption2) : TcpHeaderM :=
  { h with options := h.options ++ [o] }

/-- The TCP connection state machine nodes (spec section 3, Lifecycle). -/
inductive TcpStateM
  | listen
  | synSent
  | synRcvd
  | established
  | finWait1
  | finWait2
  | closeWait
  | closing
  | lastAck
  | timeWait
  | closed
  deriving DecidableEq, Repr

/-- The ESTABLISHED control block fields relevant to the claims.

Modelled from the spec: `ctrlblk.rs` is not under `src/`.  Fields follow
spec section 3 (TCP Control Block): identity, receive next (`RCV.NXT`),
send unacknowledged (`SND.UNA`), window sizes and scales, MSS, delayed-ACK
timeout, and the lifecycle node. -/
structure ControlBlockM where
  localEp : Endpoint
  remote : Endpoint
  rcv_nxt : Nat
  ack_delay_timeout : Nat
  local_window_size : Nat
  local_window_scale : Nat
  snd_una : Nat
  remote_window_size : Nat
  remote_window_scale : Nat
  mss : Nat
  state : TcpStateM
  deriving DecidableEq, Repr

/-- `ControlBlock::new` as invoked from `PassiveSocket::receive` (arguments
in call-site order; the congestion-control constructor and the final
`None` argument carry no state the claims mention and are dropped).

Modelled from the spec: `ctrlblk.rs` is not under `src/`.  Spec section 4.7
says the completed handshake constructs the control block in state
ESTABLISHED, and scenario S1 fixes `RCV.NXT` to the receive-next argument
and `SND.UNA` to the sender sequence argument. -/
def ControlBlockM.new (localEp remote : Endpoint) (receiveNext : Nat)
    (ackDelayTimeout : Nat) (localWindowSize localWindowScale : Nat)
    (senderSeq : Nat) (remoteWindowSize remoteWindowScale : Nat)
    (mss : Nat) : ControlBlockM :=
  ⟨localEp, remote, receiveNext, ackDelayTimeout, localWindowSize,
    localWindowScale, senderSeq, remoteWindowSize, remoteWindowScale, mss,
    .established⟩

/-- TCP configuration values read by `passive_open.rs` through
`rt.tcp_options()`.

Modelled from the spec: `TcpConfig` is not under `src/`; the fields are the
configuration surface of spec section 6.3. -/
structure TcpOptionsM where
  advertised_mss : Nat
  window_scale : Nat
  receive_window_size : Nat
  ack_delay_timeout : Nat
  handshake_retries : Nat
  handshake_timeout : Nat
  deriving DecidableEq, Repr

/-- `FALLBACK_MSS` of `tcp/constants.rs`.

Modelled from the spec: `constants.rs` is not under `src/`; spec section
4.7 fixes the default MSS to 536. -/
def FALLBACK_MSS : Nat := 536

/-- An `InflightAccept` entry.  The stored `SchedulerHandle` is modelled by
the flag `bgDone`: it is `true` once the background task has pushed its
timeout error (the task runs at most once to completion, and dropping the
entry drops the handle, cancelling the task). -/
structure InflightAcceptM where
  local_isn : Nat
  remote_isn : Nat
  header_window_size : Nat
  remote_window_scale : Option Nat
  mss : Nat
  bgDone : Bool
  deriving DecidableEq, Repr

/-- The passive socket state: in-flight accepts keyed by remote endpoint
(association list; the `HashMap` key uniqueness is an invariant proved
below), the ready queue with its endpoint set and waker, the backlog bound,
the ISN generator state, and the local endpoint.  The field `wokeCount`
counts waker wake-ups, modelling `w.wake()` calls observably. -/
structure PassiveSocketM where
  inflight : List (Endpoint × InflightAcceptM)
  ready : List (Except Fail ControlBlockM)
  endpoints : List Endpoint
  readyWaker : Bool
  wokeCount : Nat
  max_backlog : Nat
  isnNonce : Nat
  isnCounter : Nat
  localEp : Endpoint

/-- `PassiveSocket::new`. -/
def PassiveSocketM.new (localEp : Endpoint) (max_backlog : Nat) (nonce : Nat) :
    PassiveSocketM :=
  ⟨[], [], [], false, 0, max_backlog, nonce, 0, localEp⟩

/-- `HashMap::get` on the in-flight association list. -/
def lookupInflight : List (Endpoint × InflightAcceptM) → Endpoint →
    Option InflightAcceptM
  | [], _ => none
  | (k, v) :: rest, r => if k = r then some v else lookupInflight rest r

/-- `HashMap::remove` on the in-flight association list (first match). -/
def removeInflight : List (Endpoint × InflightAcceptM) → Endpoint →
    List (Endpoint × InflightAcceptM)
  | [], _ => []
  | (k, v) :: rest, r => if k = r then rest else (k, v) :: removeInflight rest r

/-- Mark the in-flight entry for `r` as having completed its background
task. -/
def setBgDone : List (Endpoint × InflightAcceptM) → Endpoint →
    List (Endpoint × InflightAcceptM)
  | [], _ => []
  | (k, v) :: rest, r =>
    if k = r then (k, { v with bgDone := true }) :: rest
    else (k, v) :: setBgDone rest r

/-- `HashSet::remove` on the ready-endpoint list (first occurrence). -/
def eraseEp : List Endpoint → Endpoint → List Endpoint
  | [], _ => []
  | e :: rest, r => if e = r then rest else e :: eraseEp rest r

/-- `ReadySockets::push_ok`: record the remote endpoint, append the control
block, and wake a registered accept waker. -/
def pushOk (s : PassiveSocketM) (cb : ControlBlockM) : PassiveSocketM :=
  { s with
    endpoints := cb.remote :: s.endpoints,
    ready := s.ready ++ [.ok cb],
    readyWaker := false,
    wokeCount := s.wokeCount + (if s.readyWaker then 1 else 0) }

/-- `ReadySockets::push_err`: append the error and wake a registered accept
waker; the endpoint set is untouched. -/
def pushErr (s : PassiveSocketM) (e : Fail) : PassiveSocketM :=
  { s with
    ready := s.ready ++ [.error e],
    readyWaker := false,
    wokeCount := s.wokeCount + (if s.readyWaker then 1 else 0) }

/-- `Rust checked_shl` on a `bits`-wide unsigned integer: `none` when the
shift is at least the bit width, otherwise the shifted value in `bits`-wide
wrapping arithmetic. -/
def checkedShl (bits x sh : Nat) : Option Nat :=
  if sh < bits then some ((x <<< sh) % 2 ^ bits) else none

/-- The option-scanning loop of `PassiveSocket::receive` on a SYN: the last
window-scale option wins, the last MSS option wins, the MSS defaults to
`FALLBACK_MSS`. -/
def optionsScan (opts : List TcpOption2) : Option Nat × Nat :=
  opts.foldl
    (fun acc o =>
      match o with
      | .windowScale w => (some w, acc.2)
      | .maximumSegmentSize m => (acc.1, m)
      | _ => acc)
    (none, FALLBACK_MSS)

/-- Result of `PassiveSocket::receive`: success with the new state, a
well-typed error (the state is returned unchanged: every `Err` return in the
source happens before any mutation), or a Rust panic (a failed `expect`). -/
inductive RecvResult
  | ok (s : PassiveSocketM)
  | err (e : Fail) (s : PassiveSocketM)
  | panicked

/-- `PassiveSocket::receive`.  Mirrors the source: drop (with success) for a
remote endpoint already in the ready set; for an in-flight remote demand an
ACK with `ack_num = local_isn + 1`, rebuild the window sizes through
`checked_shl` (panicking on shift overflow), remove the entry and push the
ESTABLISHED control block; for a new remote demand a pure SYN, enforce the
backlog bound, generate the local ISN, scan the options, and record the
in-flight entry (spawning the SYN+ACK background task, modelled by
`bgDone := false`). -/
def PassiveSocketM.receive (opts : TcpOptionsM) (s : PassiveSocketM)
    (srcAddr : Nat) (h : TcpHeaderM) : RecvResult :=
  let remote : Endpoint := ⟨srcAddr, h.src_port⟩
  if remote ∈ s.endpoints then .ok s
  else
    let inflight_len := s.inflight.length
    match lookupInflight s.inflight remote with
    | some entry =>
      if !h.ack then .err ⟨EBADMSG, "expeting ACK"⟩ s
      else if h.ack_num ≠ (entry.local_isn + 1) % 4294967296 then
        .err ⟨EBADMSG, "invalid SYN+ACK seq num"⟩ s
      else
        let scales : Nat × Nat :=
          match entry.remote_window_scale with
          | some w => (opts.window_scale, w)
          | none => (0, 0)
        match checkedShl 16 entry.header_window_size scales.2 with
        | none => .panicked
        | some remote_window_size =>
          match checkedShl 32 opts.receive_window_size scales.1 with
          | none => .panicked
          | some local_window_size =>
            let cb := ControlBlockM.new s.localEp remote
              ((entry.remote_isn + 1) % 4294967296) opts.ack_delay_timeout
              local_window_size scales.1 ((entry.local_isn + 1) % 4294967296)
              remote_window_size scales.2 entry.mss
            .ok (pushOk { s with inflight := removeInflight s.inflight remote } cb)
    | none =>
      if !h.syn || h.ack || h.rst then .err ⟨EBADMSG, "invalid flags"⟩ s
      else if s.max_backlog ≤ inflight_len + s.ready.length then
        .err ⟨ECONNREFUSED, "connection refused"⟩ s
      else
        let gen := IsnGenerator.generate ⟨s.isnNonce, s.isnCounter⟩ s.localEp remote
        let scan := optionsScan h.options
        let accept : InflightAcceptM :=
          ⟨gen.1, h.seq_num, h.window_size, scan.1, scan.2, false⟩
        .ok { s with
              inflight := s.inflight ++ [(remote, accept)],
              isnCounter := gen.2.counter }

/-- `PassiveSocket::poll_accept` via `ReadySockets::poll`: pop the front of
the ready queue, removing a popped control block from the endpoint set;
on an empty queue register the waker and return pending (`none`). -/
def pollAccept (s : PassiveSocketM) :
    Option (Except Fail ControlBlockM) × PassiveSocketM :=
  match s.ready with
  | [] => (none, { s with readyWaker := true })
  | .ok cb :: rest =>
    (some (.ok cb), { s with ready := rest, endpoints := eraseEp s.endpoints cb.remote })
  | .error e :: rest => (some (.error e), { s with ready := rest })

/-- Completion of the SYN+ACK background task for remote `r`: if the
in-flight entry still exists (its handle has not been dropped by handshake
completion) and the task has not already finished, push the handshake
timeout error into the ready queue.  Models the final
`ready.push_err(Fail::new(ETIMEDOUT, ...))` of `PassiveSocket::background`. -/
def bgFire (s : PassiveSocketM) (r : Endpoint) : Option PassiveSocketM :=
  match lookupInflight s.inflight r with
  | some entry =>
    if entry.bgDone then none
    else some (pushErr { s with inflight := setBgDone s.inflight r }
      ⟨ETIMEDOUT, "handshake timeout"⟩)
  | none => none

/-- One scheduler-visible step of the passive socket: a successful
`receive` (failed receives return the state unchanged), an `accept` poll,
or the completion of a SYN+ACK background task. -/
inductive PassiveStep (opts : TcpOptionsM) : PassiveSocketM → PassiveSocketM → Prop
  | receiveOk (s : PassiveSocketM) (srcAddr : Nat) (h : TcpHeaderM)
      (s' : PassiveSocketM) :
      PassiveSocketM.receive opts s srcAddr h = .ok s' → PassiveStep opts s s'
  | pollStep (s : PassiveSocketM) : PassiveStep opts s (pollAccept s).2
  | bgStep (s : PassiveSocketM) (r : Endpoint) (s' : PassiveSocketM) :
      bgFire s r = some s' → PassiveStep opts s s'

/-- States of a passive socket reachable from `PassiveSocket::new`. -/
inductive PassiveReachable (opts : TcpOptionsM) (localEp : Endpoint)
    (backlog nonce : Nat) : PassiveSocketM → Prop
  | init : PassiveReachable opts localEp backlog nonce
      (PassiveSocketM.new localEp backlog nonce)
  | step (s s' : PassiveSocketM) :
      PassiveReachable opts localEp backlog nonce s → PassiveStep opts s s' →
      PassiveReachable opts localEp backlog nonce s'

/-! ## The SYN+ACK background task as an event trace -/

/-- Observable events of the `PassiveSocket::background` task. -/
inductive BgEvent
  | arpQuery (addr : Nat)
  | transmitSynAck (h : TcpHeaderM)
  | waitWake (d : Nat)
  | pushTimeoutErr (e : Fail)
  deriving DecidableEq, Repr

/-- The SYN+ACK header the background task transmits: SYN and ACK set,
sequence number the local ISN, acknowledgment number the remote ISN plus
one, the configured receive window, and the advertised MSS and window-scale
options. -/
def synAckHeader (opts : TcpOptionsM) (localEp remoteEp : Endpoint)
    (local_isn remote_isn : Nat) : TcpHeaderM :=
  let h := TcpHeaderM.new localEp.port remoteEp.port
  let h := { h with
    syn := true,
    seq_num := local_isn,
    ack := true,
    ack_num := (remote_isn + 1) % 4294967296,
    window_size := opts.receive_window_size }
  let h := h.pushOption (.maximumSegmentSize opts.advertised_mss)
  h.pushOption (.windowScale opts.window_scale)

/-- The event trace of the retry loop of `PassiveSocket::background`,
starting at attempt `i` with `fuel` attempts left.  The ARP oracle gives the
outcome of each `arp.query` await: a failed query consumes the attempt
without transmitting (the `continue` branch); a successful one transmits
the SYN+ACK and then waits `handshake_timeout`.  After the loop the task
pushes the handshake timeout error. -/
def bgRun (opts : TcpOptionsM) (localEp remoteEp : Endpoint)
    (local_isn remote_isn : Nat) (oracle : Nat → Option Nat) :
    Nat → Nat → List BgEvent
  | _, 0 => [.pushTimeoutErr ⟨ETIMEDOUT, "handshake timeout"⟩]
  | i, fuel + 1 =>
    match oracle i with
    | none => .arpQuery remoteEp.addr ::
        bgRun opts localEp remoteEp local_isn remote_isn oracle (i + 1) fuel
    | some _ => .arpQuery remoteEp.addr ::
        .transmitSynAck (synAckHeader opts localEp remoteEp local_isn remote_isn) ::
        .waitWake opts.handshake_timeout ::
        bgRun opts localEp remoteEp local_isn remote_isn oracle (i + 1) fuel

/-- The full event trace of `PassiveSocket::background`. -/
def backgroundTrace (opts : TcpOptionsM) (localEp remoteEp : Endpoint)
    (local_isn remote_isn : Nat) (oracle : Nat → Option Nat) : List BgEvent :=
  bgRun opts localEp remoteEp local_isn remote_isn oracle 0 opts.handshake_retries

/-- Number of SYN+ACK transmissions in a trace. -/
def transmitCount : List BgEvent → Nat
  | [] => 0
  | .transmitSynAck _ :: rest => transmitCount rest + 1
  | _ :: rest => transmitCount rest

/-- Every transmitted segment of the trace carries SYN and ACK, sequence
number `local_isn`, and acknowledgment number `remote_isn + 1`. -/
def transmitsWellFormed (local_isn remote_isn : Nat) : List BgEvent → Bool
  | [] => true
  | .transmitSynAck h :: rest =>
    (h.syn && h.ack && h.seq_num == local_isn &&
      h.ack_num == (remote_isn + 1) % 4294967296) &&
      transmitsWellFormed local_isn remote_isn rest
  | _ :: rest => transmitsWellFormed local_isn remote_isn rest

/-- Every transmission in the trace is immediately followed by a wait of
duration `d`. -/
def waitsAfterTransmits (d : Nat) : List BgEvent → Bool
  | [] => true
  | .transmitSynAck _ :: rest =>
    (match rest with
     | .waitWake d' :: _ => d' == d
     | _ => false) && waitsAfterTransmits d rest
  | _ :: rest => waitsAfterTransmits d rest

/-- The trace is nonempty and ends with the given event. -/
def endsWith (e : BgEvent) : List BgEvent → Bool
  | [] => false
  | [x] => x == e
  | _ :: rest => endsWith e rest

/-! ## Derived state observations and the reachability invariant -/

/-- The remote endpoints of the successfully completed (Ok) control blocks
waiting in the ready queue. -/
def okRemotes : List (Except Fail ControlBlockM) → List Endpoint
  | [] => []
  | .ok cb :: rest => cb.remote :: okRemotes rest
  | .error _ :: rest => okRemotes rest

/-- The number of completed (Ok) control blocks in the ready queue. -/
def okCount (l : List (Except Fail ControlBlockM)) : Nat :=
  (okRemotes l).length

/-- The state invariant of the passive socket: in-flight keys are distinct,
the completed entries of the ready queue have distinct remote endpoints, the
ready endpoint set covers them, and the in-flight entries plus completed
ready entries respect the backlog bound. -/
def PassiveInv (s : PassiveSocketM) : Prop :=
  (s.inflight.map Prod.fst).Nodup ∧
    (okRemotes s.ready).Nodup ∧
    (∀ r, r ∈ okRemotes s.ready → r ∈ s.endpoints) ∧
    s.inflight.length + okCount s.ready ≤ s.max_backlog

/-! ## Concrete scenario states used by counterexamples and witnesses -/

/-- A valid concrete IPv4 header with total-length field 20. -/
def ipv4HdrCex : Ipv4HeaderM :=
  ⟨4, 5, 0, 0, 20, 0, 0, 0, 255, .tcp, 0, 0, 0⟩

/-- A concrete TCP configuration (MSS 1450, window scale 2, receive window
1024, delayed-ACK timeout 5, 3 handshake retries, handshake timeout 1000). -/
def optsCex : TcpOptionsM := ⟨1450, 2, 1024, 5, 3, 1000⟩

/-- Local endpoint of the concrete passive-open scenarios: 192.168.1.1:12100. -/
def epLocalCex : Endpoint := ⟨0xC0A80101, 12100⟩

/-- Remote endpoint of the concrete passive-open scenarios: 192.168.1.2:33000. -/
def epRemoteCex : Endpoint := ⟨0xC0A80102, 33000⟩

/-- A SYN from the remote endpoint carrying a window-scale option of 16. -/
def synHdr16Cex : TcpHeaderM :=
  ⟨33000, 12100, 777, 0, true, false, false, false, 1000, [.windowScale 16]⟩

/-- A plain SYN from the remote endpoint with no options. -/
def synHdrCex : TcpHeaderM :=
  ⟨33000, 12100, 777, 0, true, false, false, false, 1000, []⟩

/-- The passive socket (backlog 5, nonce 0) after receiving `synHdr16Cex`. -/
def c1State : PassiveSocketM :=
  match PassiveSocketM.receive optsCex (PassiveSocketM.new epLocalCex 5 0)
      0xC0A80102 synHdr16Cex with
  | .ok s => s
  | _ => PassiveSocketM.new epLocalCex 5 0

/-- The local ISN generated for the first connection from `epRemoteCex`
(nonce 0, counter 0). -/
def c1Isn : Nat :=
  (IsnGenerator.generate ⟨0, 0⟩ epLocalCex epRemoteCex).1

/-- The in-flight entry recorded in `c1State` for the remote endpoint. -/
def c1Entry : InflightAcceptM :=
  (lookupInflight c1State.inflight epRemoteCex).getD ⟨0, 0, 0, none, 0, false⟩

/-- The handshake ACK whose acknowledgment number matches the recorded local
ISN plus one. -/
def ackHdrCex : TcpHeaderM :=
  ⟨33000, 12100, 778, (c1Isn + 1) % 4294967296, false, true, false, false, 1000, []⟩

/-- A fresh passive socket with backlog 1 and nonce 0. -/
def c3State0 : PassiveSocketM := PassiveSocketM.new epLocalCex 1 0

/-- `c3State0` after receiving the plain SYN: one in-flight accept. -/
def c3State1 : PassiveSocketM :=
  match PassiveSocketM.receive optsCex c3State0 0xC0A80102 synHdrCex with
  | .ok s => s
  | _ => c3State0

/-- The in-flight entry recorded in `c3State1` for the remote endpoint. -/
def c3Entry : InflightAcceptM :=
  (lookupInflight c3State1.inflight epRemoteCex).getD ⟨0, 0, 0, none, 0, false⟩

/-- `c3State1` after its SYN+ACK background task exhausts its retries and
pushes the handshake timeout error. -/
def c3State2 : PassiveSocketM :=
  (bgFire c3State1 epRemoteCex).getD c3State1

/-- `c3State1` after the matching handshake ACK: the in-flight entry is gone
and an ESTABLISHED control block waits in the ready queue. -/
def c7State2 : PassiveSocketM :=
  match PassiveSocketM.receive optsCex c3State1 0xC0A80102 ackHdrCex with
  | .ok s => s
  | _ => c3State1

/-! ## Checksum lemmas -/

theorem foldCarryAux_pos (fuel s : Nat) (hs : 1 ≤ s) : 1 ≤ foldCarryAux fuel s := by
  induction fuel generalizing s with
  | zero => simpa [foldCarryAux] using hs
  | succ n ih =>
    unfold foldCarryAux
    by_cases hgt : s > 0xffff
    · simp only [hgt, if_true]
      exact ih (s - 0xffff) (by omega)
    · simpa [hgt] using hs

theorem foldCarry_pos (s : Nat) (hs : 1 ≤ s) : 1 ≤ foldCarry s :=
  foldCarryAux_pos s s hs

theorem computeChecksum_ne (b : Nat → Nat) : computeChecksum b ≠ 65535 := by
  unfold computeChecksum
  have h1 : 1 ≤ foldCarry
      (0xffff + readU16 b 0 + readU16 b 2 + readU16 b 4 + readU16 b 6 +
        readU16 b 8 + readU16 b 12 + readU16 b 14 + readU16 b 16 + readU16 b 18) :=
    foldCarry_pos _ (by omega)
  omega

theorem computeChecksum_le (b : Nat → Nat) : computeChecksum b ≤ 65534 := by
  have := computeChecksum_ne b
  unfold computeChecksum at *
  omega

/-- The checksum depends only on the header bytes outside the checksum word:
if two byte functions agree on indices below 20 other than 10 and 11, they
have the same checksum. -/
theorem computeChecksum_congr (f g : Nat → Nat)
    (h : ∀ i, i < 20 → i ≠ 10 → i ≠ 11 → f i = g i) :
    computeChecksum f = computeChecksum g := by
  unfold computeChecksum readU16
  rw [h 0 (by omega) (by omega) (by omega), h 1 (by omega) (by omega) (by omega),
    h 2 (by omega) (by omega) (by omega), h 3 (by omega) (by omega) (by omega),
    h 4 (by omega) (by omega) (by omega), h 5 (by omega) (by omega) (by omega),
    h 6 (by omega) (by omega) (by omega), h 7 (by omega) (by omega) (by omega),
    h 8 (by omega) (by omega) (by omega), h 9 (by omega) (by omega) (by omega),
    h 12 (by omega) (by omega) (by omega), h 13 (by omega) (by omega) (by omega),
    h 14 (by omega) (by omega) (by omega), h 15 (by omega) (by omega) (by omega),
    h 16 (by omega) (by omega) (by omega), h 17 (by omega) (by omega) (by omega),
    h 18 (by omega) (by omega) (by omega), h 19 (by omega) (by omega) (by omega)]

/-- C9.  For every 20-byte header view, `Ipv4Header::compute_checksum` never
returns `0xFFFF`: the accumulator is seeded at `0xFFFF`, so the folded state
is at least 1 and the complement is at most `0xFFFE`.  Consequently the
checksum word of every serialized header differs from `0xFFFF`, so
`Ipv4Header::parse` never rejects a serialized header at its
`checksum = 0xFFFF` check. -/
theorem checksum_never_ffff :
    (∀ b : Nat → Nat, computeChecksum b ≠ 65535) ∧
      (∀ (h : Ipv4HeaderM) (payload_len : Nat),
        readU16 (serHdrByte h payload_len) 10 ≠ 65535) := by
  refine ⟨computeChecksum_ne, fun h payload_len => ?_⟩
  have hle := computeChecksum_le (serHdrByteNoCk h payload_len)
  have h10 : serHdrByte h payload_len 10 =
      computeChecksum (serHdrByteNoCk h payload_len) / 256 := by
    unfold serHdrByte; simp
  have h11 : serHdrByte h payload_len 11 =
      computeChecksum (serHdrByteNoCk h payload_len) % 256 := by
    unfold serHdrByte; simp
  unfold readU16
  rw [h10, h11]
  omega

/-! ## CRC32 lemmas and C6 -/

theorem comp32_comp32 (x : Nat) : comp32 (comp32 x) = x := by
  unfold comp32
  rw [Nat.xor_assoc, Nat.xor_self, Nat.xor_zero]

theorem crc32UpdateBytes_append (s : Nat) (a b : List Nat) :
    crc32UpdateBytes s (a ++ b) = crc32UpdateBytes (crc32UpdateBytes s a) b := by
  unfold crc32UpdateBytes
  exact List.foldl_append crc32UpdateByte s a b

theorem digestWrite_append (v : Nat) (a b : List Nat) :
    digestWrite (digestWrite v a) b = digestWrite v (a ++ b) := by
  unfold digestWrite
  rw [comp32_comp32, crc32UpdateBytes_append]

/-- C6.  `IsnGenerator::generate` (non-test build) returns the CRC32 digest
of the remote address, remote port, local address, local port and per-stack
nonce, plus the current counter, in wrapping 32-bit arithmetic; and the
16-bit counter wraps and is incremented by exactly one per call, the nonce
being unchanged. -/
theorem isn_generator_crc (g : IsnGenerator) (localEp remoteEp : Endpoint) :
    (g.generate localEp remoteEp).1 =
      (crc32 (encodeU32 remoteEp.addr ++ encodeU16 remoteEp.port ++
        encodeU32 localEp.addr ++ encodeU16 localEp.port ++
        encodeU32 g.nonce) + g.counter) % 4294967296 ∧
    (g.generate localEp remoteEp).2.counter = (g.counter + 1) % 65536 ∧
    (g.generate localEp remoteEp).2.nonce = g.nonce := by
  refine ⟨?_, rfl, rfl⟩
  show (digestWrite (digestWrite (digestWrite (digestWrite (digestWrite 0
      (encodeU32 remoteEp.addr)) (encodeU16 remoteEp.port))
      (encodeU32 localEp.addr)) (encodeU16 localEp.port))
      (encodeU32 g.nonce) + g.counter) % 4294967296 = _
  rw [digestWrite_append, digestWrite_append, digestWrite_append,
    digestWrite_append]
  rfl

/-! ## C5: payload truncation of `Ipv4Header::parse` -/

/-- C5.  Every buffer accepted by `Ipv4Header::parse` yields a payload of
exactly `total_length - 20` bytes: the 20-byte header is stripped from the
front (`adjust`), and the `buf.len - total_length` trailing padding bytes
are trimmed from the back (`trim`). -/
theorem parse_payload_truncation (buf : Buf) :
    match Ipv4Header.parse buf with
    | .ok (h, p) =>
        p.len = h.total_length - 20 ∧
        p.len = buf.len - 20 - (buf.len - h.total_length) ∧
        ∀ i, p.byte i = buf.byte (i + 20)
    | .error _ => True := by
  unfold Ipv4Header.parse
  by_cases h1 : buf.len < 20
  · rw [if_pos h1]; trivial
  rw [if_neg h1]
  by_cases h2 : buf.byte 0 >>> 4 ≠ 4
  · rw [if_pos h2]; trivial
  rw [if_neg h2]
  by_cases h3 : buf.byte 0 &&& 0xF < 5
  · rw [if_pos h3]; trivial
  rw [if_neg h3]
  by_cases h4 : buf.byte 0 &&& 0xF > 5
  · rw [if_pos h4]; trivial
  rw [if_neg h4]
  by_cases h5 : buf.byte 1 >>> 2 ≠ 0
  · rw [if_pos h5]; trivial
  rw [if_neg h5]
  by_cases h6 : readU16 buf.byte 2 < 20
  · rw [if_pos h6]; trivial
  rw [if_neg h6]
  by_cases h7 : readU16 buf.byte 2 > buf.len
  · rw [if_pos h7]; trivial
  rw [if_neg h7]
  by_cases h8 : readU16 buf.byte 6 &&& 0x1fff ≠ 0
  · rw [if_pos h8]; trivial
  rw [if_neg h8]
  cases htf : Ipv4Protocol.tryFrom (buf.byte 9) with
  | error e => trivial
  | ok protocol =>
    dsimp only []
    by_cases h9 : readU16 buf.byte 10 = 0xffff
    · rw [if_pos h9]; trivial
    rw [if_neg h9]
    by_cases h10 : readU16 buf.byte 10 ≠ computeChecksum buf.byte
    · rw [if_pos h10]; trivial
    rw [if_neg h10]
    refine ⟨?_, ?_, fun i => rfl⟩
    · show buf.len - 20 - (buf.len - readU16 buf.byte 2) = readU16 buf.byte 2 - 20
      omega
    · rfl

/-! ## C2: IPv4 header round-trip -/

theorem ecn_shift_lemma (e : Nat) (he : e < 4) : (e &&& 3) >>> 2 = 0 := by
  interval_cases e <;> decide

theorem ecn_and_lemma (e : Nat) (he : e < 4) : (e &&& 3) &&& 3 = e := by
  interval_cases e <;> decide

theorem flagsword_and_lemma (f : Nat) (hf : f < 8) : (f * 8192) &&& 8191 = 0 := by
  interval_cases f <;> decide

theorem flagsword_shift_lemma (f : Nat) (hf : f < 8) : (f * 8192) >>> 13 = f := by
  interval_cases f <;> decide

theorem addr_digits_lemma (x : Nat) (hx : x < 4294967296) :
    (((x >>> 24) % 256 * 256 + (x >>> 16) % 256) * 256 + (x >>> 8) % 256) * 256 +
      x % 256 = x := by
  rw [Nat.shiftRight_eq_div_pow, Nat.shiftRight_eq_div_pow, Nat.shiftRight_eq_div_pow]
  norm_num
  omega

theorem tryFrom_toNat (p : Ipv4Protocol) : Ipv4Protocol.tryFrom p.toNat = .ok p := by
  cases p <;> rfl

set_option maxHeartbeats 1000000 in
/-- C2 amended.  For every valid IPv4 header `H` whose `total_length` field
is consistent with the payload length (`total_length = 20 + payload_len`,
which in particular bounds `payload_len` by 65515), parsing the serialized
header followed by the payload succeeds — the checksum verification passes —
and returns a header equal to `H` on all twelve canonical fields together
with the payload unchanged. -/
theorem ipv4_header_roundtrip (H : Ipv4HeaderM) (pl : Nat) (payload : Nat → Nat)
    (hv : H.valid) (hlen : H.total_length = 20 + pl) :
    RoundtripOk H pl payload := by
  obtain ⟨hver, hihl, hdscp, hecn, htl, hid, hflags, hmf, hfrag, httl, hsrc, hdst⟩ := hv
  have hb : ∀ i, i < 20 → (serializeBuf H pl payload).byte i = serHdrByte H pl i := by
    intro i hi
    show (if i < 20 then serHdrByte H pl i else payload (i - 20)) = _
    rw [if_pos hi]
  have hlenb : (serializeBuf H pl payload).len = 20 + pl := rfl
  have e0 : serHdrByte H pl 0 = 69 := rfl
  have e1 : serHdrByte H pl 1 = H.ecn &&& 3 := by
    show ((H.dscp <<< 2) % 256) ||| (H.ecn &&& 3) = _
    rw [hdscp]
    simp
  have htlw : (20 + pl) % 65536 = 20 + pl := Nat.mod_eq_of_lt (by omega)
  have e2 : serHdrByte H pl 2 = (20 + pl) / 256 := by
    show ((20 + pl) % 65536) / 256 = _
    rw [htlw]
  have e3 : serHdrByte H pl 3 = (20 + pl) % 256 := by
    show ((20 + pl) % 65536) % 256 = _
    rw [htlw]
  have hread2 : readU16 (serializeBuf H pl payload).byte 2 = 20 + pl := by
    unfold readU16
    norm_num
    rw [hb 2 (by omega), hb 3 (by omega), e2, e3]
    omega
  have hfw : ((H.flags <<< 13) % 65536) ||| (H.fragment_offset &&& 0x1fff) =
      H.flags * 8192 := by
    rw [hfrag]
    simp only [Nat.zero_and, Nat.or_zero, Nat.shiftLeft_eq]
    show H.flags * 2 ^ 13 % 65536 = H.flags * 8192
    have h13 : (2 : Nat) ^ 13 = 8192 := by norm_num
    rw [h13]
    exact Nat.mod_eq_of_lt (by omega)
  have e6 : serHdrByte H pl 6 = H.flags * 8192 / 256 := by
    show (((H.flags <<< 13) % 65536) ||| (H.fragment_offset &&& 0x1fff)) / 256 = _
    rw [hfw]
  have e7 : serHdrByte H pl 7 = H.flags * 8192 % 256 := by
    show (((H.flags <<< 13) % 65536) ||| (H.fragment_offset &&& 0x1fff)) % 256 = _
    rw [hfw]
  have hread6 : readU16 (serializeBuf H pl payload).byte 6 = H.flags * 8192 := by
    unfold readU16
    norm_num
    rw [hb 6 (by omega), hb 7 (by omega), e6, e7]
    omega
  have e10 : serHdrByte H pl 10 = computeChecksum (serHdrByteNoCk H pl) / 256 := by
    unfold serHdrByte
    simp
  have e11 : serHdrByte H pl 11 = computeChecksum (serHdrByteNoCk H pl) % 256 := by
    unfold serHdrByte
    simp
  have hread10 : readU16 (serializeBuf H pl payload).byte 10 =
      computeChecksum (serHdrByteNoCk H pl) := by
    unfold readU16
    norm_num
    rw [hb 10 (by omega), hb 11 (by omega), e10, e11]
    omega
  have hcksb : computeChecksum (serializeBuf H pl payload).byte =
      computeChecksum (serHdrByteNoCk H pl) := by
    refine computeChecksum_congr _ _ (fun i hi hi10 hi11 => ?_)
    rw [hb i hi]
    unfold serHdrByte
    rw [if_neg hi10, if_neg hi11]
  have c1 : ¬((serializeBuf H pl payload).len < 20) := by
    rw [hlenb]; omega
  have c2 : ¬((serializeBuf H pl payload).byte 0 >>> 4 ≠ 4) := by
    rw [hb 0 (by omega), e0]; decide
  have c3 : ¬((serializeBuf H pl payload).byte 0 &&& 0xF < 5) := by
    rw [hb 0 (by omega), e0]; decide
  have c4 : ¬((serializeBuf H pl payload).byte 0 &&& 0xF > 5) := by
    rw [hb 0 (by omega), e0]; decide
  have c5 : ¬((serializeBuf H pl payload).byte 1 >>> 2 ≠ 0) := by
    rw [hb 1 (by omega), e1, ecn_shift_lemma H.ecn hecn]
    simp
  have c6 : ¬(readU16 (serializeBuf H pl payload).byte 2 < 20) := by
    rw [hread2]; omega
  have c7 : ¬(readU16 (serializeBuf H pl payload).byte 2 > (serializeBuf H pl payload).len) := by
    rw [hread2, hlenb]
    omega
  have c8 : ¬(readU16 (serializeBuf H pl payload).byte 6 &&& 0x1fff ≠ 0) := by
    rw [hread6, flagsword_and_lemma H.flags hflags]
    simp
  have c9 : ¬(readU16 (serializeBuf H pl payload).byte 10 = 0xffff) := by
    rw [hread10]
    have := computeChecksum_le (serHdrByteNoCk H pl)
    omega
  have c10 : ¬(readU16 (serializeBuf H pl payload).byte 10 ≠
      computeChecksum (serializeBuf H pl payload).byte) := by
    rw [hread10, hcksb]
    simp
  unfold RoundtripOk Ipv4Header.parse
  rw [if_neg c1, if_neg c2, if_neg c3, if_neg c4, if_neg c5, if_neg c6,
    if_neg c7, if_neg c8, hb 9 (by omega)]
  rw [show serHdrByte H pl 9 = H.protocol.toNat from rfl, tryFrom_toNat H.protocol]
  dsimp only []
  rw [if_neg c9, if_neg c10]
  refine ⟨⟨?_, ?_, ?_, ?_, ?_, ?_, ?_, ?_, ?_, ?_, ?_, ?_⟩, ?_, ?_⟩
  · exact hver.symm
  · show (serializeBuf H pl payload).byte 0 &&& 0xF = H.ihl
    rw [hb 0 (by omega), e0, hihl]
    decide
  · show (serializeBuf H pl payload).byte 1 >>> 2 = H.dscp
    rw [hb 1 (by omega), e1, ecn_shift_lemma H.ecn hecn, hdscp]
  · show (serializeBuf H pl payload).byte 1 &&& 3 = H.ecn
    rw [hb 1 (by omega), e1, ecn_and_lemma H.ecn hecn]
  · show readU16 (serializeBuf H pl payload).byte 2 = H.total_length
    rw [hread2, hlen]
  · show readU16 (serializeBuf H pl payload).byte 4 = H.identification
    unfold readU16
    norm_num
    rw [hb 4 (by omega), hb 5 (by omega)]
    show H.identification / 256 * 256 + H.identification % 256 = H.identification
    omega
  · show readU16 (serializeBuf H pl payload).byte 6 >>> 13 = H.flags
    rw [hread6, flagsword_shift_lemma H.flags hflags]
  · show readU16 (serializeBuf H pl payload).byte 6 &&& 0x1fff = H.fragment_offset
    rw [hread6, flagsword_and_lemma H.flags hflags, hfrag]
  · show (serializeBuf H pl payload).byte 8 = H.ttl
    rw [hb 8 (by omega)]
    rfl
  · rfl
  · show readU32 (serializeBuf H pl payload).byte 12 = H.src_addr
    unfold readU32
    norm_num
    rw [hb 12 (by omega), hb 13 (by omega), hb 14 (by omega), hb 15 (by omega)]
    exact addr_digits_lemma H.src_addr hsrc
  · show readU32 (serializeBuf H pl payload).byte 16 = H.dst_addr
    unfold readU32
    norm_num
    rw [hb 16 (by omega), hb 17 (by omega), hb 18 (by omega), hb 19 (by omega)]
    exact addr_digits_lemma H.dst_addr hdst
  · show (serializeBuf H pl payload).len - 20 -
      ((serializeBuf H pl payload).len - readU16 (serializeBuf H pl payload).byte 2) = pl
    rw [hread2, hlenb]
    omega
  · intro i
    show (if i + 20 < 20 then serHdrByte H pl (i + 20) else payload (i + 20 - 20)) = payload i
    rw [if_neg (by omega)]
    have hsub : i + 20 - 20 = i := by omega
    rw [hsub]

/-- A successful round trip reports the total-length field of the input
header. -/
theorem roundtrip_total_length (H : Ipv4HeaderM) (pl : Nat) (payload : Nat → Nat)
    (h : RoundtripOk H pl payload) :
    parsedTotalLength (serializeBuf H pl payload) = some H.total_length := by
  unfold RoundtripOk at h
  unfold parsedTotalLength
  cases hp : Ipv4Header.parse (serializeBuf H pl payload) with
  | error e => rw [hp] at h; exact h.elim
  | ok kp =>
    obtain ⟨k, p⟩ := kp
    rw [hp] at h
    dsimp only [] at h ⊢
    rw [h.1.2.2.2.2.1]

/-- C2 counterexample.  The round-trip claim as stated — for every valid
header and every payload length — is false: `Ipv4Header::serialize` derives
the total-length word from `payload_len` and ignores the header's own
`total_length` field, so a valid header with `total_length = 20` serialized
with `payload_len = 1` parses back with total length 21. -/
theorem ipv4_header_roundtrip_cex :
    ¬ (∀ (H : Ipv4HeaderM) (pl : Nat) (payload : Nat → Nat),
        H.valid → RoundtripOk H pl payload) := by
  intro hall
  have h2 := roundtrip_total_length ipv4HdrCex 1 (fun _ => 0)
    (hall ipv4HdrCex 1 (fun _ => 0) (by decide))
  have h3 : parsedTotalLength (serializeBuf ipv4HdrCex 1 (fun _ => 0)) = some 21 := by
    rfl
  rw [h2] at h3
  exact absurd h3 (by decide)

/-- Witness for the amended C2 round-trip at a concrete valid header with a
consistent total length. -/
theorem ipv4_header_roundtrip_witness : RoundtripOk ipv4HdrCex 0 (fun _ => 0) :=
  ipv4_header_roundtrip ipv4HdrCex 0 (fun _ => 0) (by decide) (by decide)

/-! ## List lemmas for the passive-socket state -/

theorem lookupInflight_eq_none (l : List (Endpoint × InflightAcceptM)) (r : Endpoint) :
    lookupInflight l r = none ↔ r ∉ l.map Prod.fst := by
  induction l with
  | nil => simp [lookupInflight]
  | cons kv rest ih =>
    obtain ⟨k, v⟩ := kv
    by_cases hk : k = r
    · subst hk; simp [lookupInflight]
    · simp [lookupInflight, hk, ih, Ne.symm hk]

theorem removeInflight_length (l : List (Endpoint × InflightAcceptM)) (r : Endpoint)
    (e : InflightAcceptM) (h : lookupInflight l r = some e) :
    (removeInflight l r).length + 1 = l.length := by
  induction l with
  | nil => simp [lookupInflight] at h
  | cons kv rest ih =>
    obtain ⟨k, v⟩ := kv
    by_cases hk : k = r
    · simp [removeInflight, hk]
    · simp only [lookupInflight, if_neg hk] at h
      simp [removeInflight, hk, ih h]

theorem removeInflight_sublist (l : List (Endpoint × InflightAcceptM)) (r : Endpoint) :
    (removeInflight l r).Sublist l := by
  induction l with
  | nil => simp [removeInflight]
  | cons kv rest ih =>
    obtain ⟨k, v⟩ := kv
    by_cases hk : k = r
    · simp only [removeInflight, if_pos hk]
      exact List.sublist_cons_self _ _
    · simp only [removeInflight, if_neg hk]
      exact ih.cons₂ _

theorem setBgDone_keys (l : List (Endpoint × InflightAcceptM)) (r : Endpoint) :
    (setBgDone l r).map Prod.fst = l.map Prod.fst := by
  induction l with
  | nil => rfl
  | cons kv rest ih =>
    obtain ⟨k, v⟩ := kv
    by_cases hk : k = r
    · simp [setBgDone, hk]
    · simp [setBgDone, hk, ih]

theorem setBgDone_length (l : List (Endpoint × InflightAcceptM)) (r : Endpoint) :
    (setBgDone l r).length = l.length := by
  induction l with
  | nil => rfl
  | cons kv rest ih =>
    obtain ⟨k, v⟩ := kv
    by_cases hk : k = r
    · simp [setBgDone, hk]
    · simp [setBgDone, hk, ih]

theorem lookupInflight_append_self (l : List (Endpoint × InflightAcceptM))
    (r : Endpoint) (a : InflightAcceptM) (h : lookupInflight l r = none) :
    lookupInflight (l ++ [(r, a)]) r = some a := by
  induction l with
  | nil => simp [lookupInflight]
  | cons kv rest ih =>
    obtain ⟨k, v⟩ := kv
    by_cases hk : k = r
    · simp [lookupInflight, hk] at h
    · simp only [lookupInflight, if_neg hk] at h ⊢
      exact ih h

theorem okRemotes_append_ok (l : List (Except Fail ControlBlockM)) (cb : ControlBlockM) :
    okRemotes (l ++ [.ok cb]) = okRemotes l ++ [cb.remote] := by
  induction l with
  | nil => rfl
  | cons x rest ih =>
    cases x with
    | ok c => simp [okRemotes, ih]
    | error e => simp [okRemotes, ih]

theorem okRemotes_append_err (l : List (Except Fail ControlBlockM)) (e : Fail) :
    okRemotes (l ++ [.error e]) = okRemotes l := by
  induction l with
  | nil => rfl
  | cons x rest ih =>
    cases x with
    | ok c => simp [okRemotes, ih]
    | error e2 => simp [okRemotes, ih]

theorem okCount_le_length (l : List (Except Fail ControlBlockM)) :
    okCount l ≤ l.length := by
  induction l with
  | nil => exact Nat.le_refl 0
  | cons x rest ih =>
    cases x with
    | ok c =>
      show (okRemotes (.ok c :: rest)).length ≤ rest.length + 1
      simp only [okRemotes, List.length_cons]
      exact Nat.succ_le_succ ih
    | error e =>
      show (okRemotes (.error e :: rest)).length ≤ rest.length + 1
      simp only [okRemotes]
      exact Nat.le_succ_of_le ih

theorem mem_eraseEp (l : List Endpoint) (x r : Endpoint) (hne : r ≠ x) :
    r ∈ eraseEp l x ↔ r ∈ l := by
  induction l with
  | nil => simp [eraseEp]
  | cons e rest ih =>
    by_cases he : e = x
    · subst he
      simp only [eraseEp, if_pos rfl]
      simp [hne, ih]
    · simp only [eraseEp, if_neg he]
      simp [ih]

theorem nodup_append_singleton {α : Type} (l : List α) (a : α)
    (hl : l.Nodup) (ha : a ∉ l) : (l ++ [a]).Nodup := by
  induction l with
  | nil => simp
  | cons x rest ih =>
    rw [List.nodup_cons] at hl
    simp only [List.cons_append, List.nodup_cons]
    constructor
    · intro hmem
      rcases List.mem_append.mp hmem with hx | hx
      · exact hl.1 hx
      · simp at hx
        subst hx
        exact ha (List.mem_cons_self _ _)
    · exact ih hl.2 (fun hmem => ha (List.mem_cons_of_mem _ hmem))

/-! ## Case analysis of a successful `PassiveSocket::receive` -/

/-- A successful `receive` is one of: a silent drop (remote already ready),
a handshake completion (in-flight entry removed, control block pushed), or a
new SYN (in-flight entry appended under the backlog bound, ISN counter
stepped). -/
theorem receive_ok_cases (opts : TcpOptionsM) (s : PassiveSocketM) (srcAddr : Nat)
    (h : TcpHeaderM) (s' : PassiveSocketM)
    (heq : PassiveSocketM.receive opts s srcAddr h = .ok s') :
    s' = s ∨
    (∃ entry cb, lookupInflight s.inflight ⟨srcAddr, h.src_port⟩ = some entry ∧
      (⟨srcAddr, h.src_port⟩ : Endpoint) ∉ s.endpoints ∧
      cb.remote = (⟨srcAddr, h.src_port⟩ : Endpoint) ∧
      s' = pushOk { s with inflight := removeInflight s.inflight ⟨srcAddr, h.src_port⟩ } cb) ∨
    (∃ accept, lookupInflight s.inflight ⟨srcAddr, h.src_port⟩ = none ∧
      (⟨srcAddr, h.src_port⟩ : Endpoint) ∉ s.endpoints ∧
      s.inflight.length + s.ready.length < s.max_backlog ∧
      s' = { s with
             inflight := s.inflight ++ [((⟨srcAddr, h.src_port⟩ : Endpoint), accept)],
             isnCounter := (s.isnCounter + 1) % 65536 }) := by
  unfold PassiveSocketM.receive at heq
  dsimp only [] at heq
  by_cases hmem : (⟨srcAddr, h.src_port⟩ : Endpoint) ∈ s.endpoints
  · rw [if_pos hmem] at heq
    injection heq with hs
    exact Or.inl hs.symm
  rw [if_neg hmem] at heq
  cases hlook : lookupInflight s.inflight ⟨srcAddr, h.src_port⟩ with
  | some entry =>
    rw [hlook] at heq
    dsimp only [] at heq
    by_cases hack : (!h.ack) = true
    · rw [if_pos hack] at heq
      exact RecvResult.noConfusion heq
    rw [if_neg hack] at heq
    by_cases hnum : h.ack_num ≠ (entry.local_isn + 1) % 4294967296
    · rw [if_pos hnum] at heq
      exact RecvResult.noConfusion heq
    rw [if_neg hnum] at heq
    cases hw : entry.remote_window_scale with
    | none =>
      rw [hw] at heq
      simp only [checkedShl] at heq
      rw [if_pos (by omega : (0:Nat) < 16), if_pos (by omega : (0:Nat) < 32)] at heq
      dsimp only [] at heq
      injection heq with hs
      exact Or.inr (Or.inl ⟨entry, _, rfl, hmem, rfl, hs.symm⟩)
    | some w =>
      rw [hw] at heq
      dsimp only [] at heq
      simp only [checkedShl] at heq
      by_cases hw16 : w < 16
      · rw [if_pos hw16] at heq
        dsimp only [] at heq
        by_cases hws32 : opts.window_scale < 32
        · rw [if_pos hws32] at heq
          dsimp only [] at heq
          injection heq with hs
          exact Or.inr (Or.inl ⟨entry, _, rfl, hmem, rfl, hs.symm⟩)
        · rw [if_neg hws32] at heq
          exact RecvResult.noConfusion heq
      · rw [if_neg hw16] at heq
        exact RecvResult.noConfusion heq
  | none =>
    rw [hlook] at heq
    dsimp only [] at heq
    by_cases hflags : (!h.syn || h.ack || h.rst) = true
    · rw [if_pos hflags] at heq
      exact RecvResult.noConfusion heq
    rw [if_neg hflags] at heq
    by_cases hbl : s.max_backlog ≤ s.inflight.length + s.ready.length
    · rw [if_pos hbl] at heq
      exact RecvResult.noConfusion heq
    rw [if_neg hbl] at heq
    injection heq with hs
    exact Or.inr (Or.inr ⟨_, rfl, hmem, by omega, hs.symm⟩)

/-! ## The invariant is preserved by every step -/

theorem passiveInv_step (opts : TcpOptionsM) (s s' : PassiveSocketM)
    (hinv : PassiveInv s) (hstep : PassiveStep opts s s') : PassiveInv s' := by
  obtain ⟨hkeys, hok, hsub, hcount⟩ := hinv
  cases hstep with
  | receiveOk srcAddr h s' heq =>
    rcases receive_ok_cases opts s srcAddr h s' heq with
      hs | ⟨entry, cb, hlook, hmem, hrem, hs⟩ | ⟨accept, hlook, hmem, hbl, hs⟩
    · subst hs
      exact ⟨hkeys, hok, hsub, hcount⟩
    · subst hs
      have hnotok : cb.remote ∉ okRemotes s.ready := fun hr =>
        hmem (hrem ▸ hsub cb.remote hr)
      refine ⟨?_, ?_, ?_, ?_⟩
      · show ((removeInflight s.inflight ⟨srcAddr, h.src_port⟩).map Prod.fst).Nodup
        exact List.Nodup.sublist
          (List.Sublist.map Prod.fst (removeInflight_sublist s.inflight _)) hkeys
      · show (okRemotes (s.ready ++ [.ok cb])).Nodup
        rw [okRemotes_append_ok]
        exact nodup_append_singleton _ _ hok hnotok
      · intro r hr
        show r ∈ cb.remote :: s.endpoints
        rw [show okRemotes ((pushOk { s with
            inflight := removeInflight s.inflight ⟨srcAddr, h.src_port⟩ } cb).ready) =
            okRemotes s.ready ++ [cb.remote] from okRemotes_append_ok _ _] at hr
        rcases List.mem_append.mp hr with hx | hx
        · exact List.mem_cons_of_mem _ (hsub r hx)
        · simp at hx
          subst hx
          exact List.mem_cons_self _ _
      · show (removeInflight s.inflight ⟨srcAddr, h.src_port⟩).length +
            okCount (s.ready ++ [.ok cb]) ≤ s.max_backlog
        have h1 := removeInflight_length s.inflight _ entry hlook
        have h2 : okCount (s.ready ++ [.ok cb]) = okCount s.ready + 1 := by
          unfold okCount
          rw [okRemotes_append_ok]
          simp
        omega
    · subst hs
      refine ⟨?_, hok, hsub, ?_⟩
      · show ((s.inflight ++ [((⟨srcAddr, h.src_port⟩ : Endpoint), accept)]).map
          Prod.fst).Nodup
        rw [List.map_append]
        exact nodup_append_singleton _ _ hkeys ((lookupInflight_eq_none _ _).mp hlook)
      · show (s.inflight ++ [((⟨srcAddr, h.src_port⟩ : Endpoint), accept)]).length +
            okCount s.ready ≤ s.max_backlog
        rw [List.length_append]
        have := okCount_le_length s.ready
        simp only [List.length_singleton]
        omega
  | pollStep =>
    cases hr : s.ready with
    | nil =>
      unfold pollAccept
      rw [hr]
      exact ⟨hkeys, by rw [hr] at hok; exact hok,
        by rw [hr] at hsub; exact hsub, by rw [hr] at hcount; exact hcount⟩
    | cons x rest =>
      cases x with
      | ok cb =>
        unfold pollAccept
        rw [hr]
        rw [hr] at hok hsub hcount
        simp only [okRemotes] at hok hsub hcount
        rw [List.nodup_cons] at hok
        refine ⟨hkeys, hok.2, ?_, ?_⟩
        · intro r hrr
          have hne : r ≠ cb.remote := fun he => hok.1 (he ▸ hrr)
          exact (mem_eraseEp s.endpoints cb.remote r hne).mpr
            (hsub r (List.mem_cons_of_mem _ hrr))
        · show s.inflight.length + okCount rest ≤ s.max_backlog
          unfold okCount at hcount ⊢
          simp only [okRemotes, List.length_cons] at hcount
          omega
      | error e =>
        unfold pollAccept
        rw [hr]
        rw [hr] at hok hsub hcount
        simp only [okRemotes] at hok hsub hcount
        exact ⟨hkeys, hok, hsub, hcount⟩
  | bgStep r s' heq =>
    unfold bgFire at heq
    cases hlook : lookupInflight s.inflight r with
    | none =>
      rw [hlook] at heq
      exact Option.noConfusion heq
    | some entry =>
      rw [hlook] at heq
      dsimp only [] at heq
      by_cases hd : entry.bgDone = true
      · rw [if_pos hd] at heq
        exact Option.noConfusion heq
      · rw [if_neg hd] at heq
        injection heq with hs
        subst hs
        refine ⟨?_, ?_, ?_, ?_⟩
        · show ((setBgDone s.inflight r).map Prod.fst).Nodup
          rw [setBgDone_keys]
          exact hkeys
        · show (okRemotes (s.ready ++ [.error _])).Nodup
          rw [okRemotes_append_err]
          exact hok
        · intro x hx
          rw [show okRemotes ((pushErr { s with inflight := setBgDone s.inflight r }
              ⟨ETIMEDOUT, "handshake timeout"⟩).ready) = okRemotes s.ready from
            okRemotes_append_err _ _] at hx
          exact hsub x hx
        · show (setBgDone s.inflight r).length +
              okCount (s.ready ++ [.error _]) ≤ s.max_backlog
          rw [setBgDone_length]
          unfold okCount
          rw [okRemotes_append_err]
          exact hcount

/-- Every reachable passive-socket state satisfies the invariant. -/
theorem reachable_inv (opts : TcpOptionsM) (localEp : Endpoint)
    (backlog nonce : Nat) (s : PassiveSocketM)
    (h : PassiveReachable opts localEp backlog nonce s) : PassiveInv s := by
  induction h with
  | init =>
    exact ⟨List.nodup_nil, List.nodup_nil,
      fun r hr => absurd hr (List.not_mem_nil r), Nat.zero_le _⟩
  | step s s' hreach hstep ih => exact passiveInv_step opts s s' ih hstep

/-! ## C3: backlog refusal and backlog bound -/

/-- C3 counterexample.  The raw backlog-bound claim is false: with backlog 1,
after one SYN (one in-flight accept) the SYN+ACK background task exhausts its
retries and pushes a handshake-timeout error into the ready queue without
removing the in-flight entry, reaching a state whose in-flight count plus
ready-queue length is 2, exceeding `max_backlog = 1`. -/
theorem backlog_bound_cex :
    PassiveReachable optsCex epLocalCex 1 0 c3State2 ∧
      c3State2.max_backlog < c3State2.inflight.length + c3State2.ready.length := by
  constructor
  · exact .step c3State1 c3State2
      (.step c3State0 c3State1 .init
        (.receiveOk c3State0 0xC0A80102 synHdrCex c3State1 rfl))
      (.bgStep c3State1 epRemoteCex c3State2 rfl)
  · decide

/-- C3 amended.  A SYN from a new remote endpoint is refused with
connection-refused whenever the in-flight count plus the raw ready-queue
length is at least `max_backlog`; and at every reachable state the in-flight
count plus the number of completed (Ok) control blocks in the ready queue is
at most `max_backlog` (the raw ready-queue length may exceed the bound
through queued handshake-timeout errors, as the counterexample shows). -/
theorem backlog_bound :
    (∀ (opts : TcpOptionsM) (s : PassiveSocketM) (srcAddr : Nat) (h : TcpHeaderM),
        (⟨srcAddr, h.src_port⟩ : Endpoint) ∉ s.endpoints →
        lookupInflight s.inflight ⟨srcAddr, h.src_port⟩ = none →
        h.syn = true → h.ack = false → h.rst = false →
        s.max_backlog ≤ s.inflight.length + s.ready.length →
        PassiveSocketM.receive opts s srcAddr h =
          .err ⟨ECONNREFUSED, "connection refused"⟩ s) ∧
    (∀ (opts : TcpOptionsM) (localEp : Endpoint) (backlog nonce : Nat)
        (s : PassiveSocketM),
        PassiveReachable opts localEp backlog nonce s →
        s.inflight.length + okCount s.ready ≤ s.max_backlog) := by
  constructor
  · intro opts s srcAddr h hmem hlook hsyn hack hrst hbl
    unfold PassiveSocketM.receive
    dsimp only []
    rw [if_neg hmem, hlook]
    dsimp only []
    rw [hsyn, hack, hrst]
    simp only [Bool.not_true, Bool.or_false, Bool.false_or, Bool.or_self]
    rw [if_neg Bool.false_ne_true, if_pos hbl]
  · intro opts localEp backlog nonce s hreach
    exact (reachable_inv opts localEp backlog nonce s hreach).2.2.2

/-- Witness for the amended C3 at concrete inputs: a SYN at a zero-backlog
socket is refused, and the initial state satisfies the bound. -/
theorem backlog_bound_witness :
    PassiveSocketM.receive optsCex (PassiveSocketM.new epLocalCex 0 0)
        0xC0A80102 synHdrCex =
      .err ⟨ECONNREFUSED, "connection refused"⟩ (PassiveSocketM.new epLocalCex 0 0) ∧
    (PassiveSocketM.new epLocalCex 0 0).inflight.length +
        okCount (PassiveSocketM.new epLocalCex 0 0).ready ≤
      (PassiveSocketM.new epLocalCex 0 0).max_backlog :=
  ⟨backlog_bound.1 optsCex (PassiveSocketM.new epLocalCex 0 0) 0xC0A80102 synHdrCex
      (by decide) rfl rfl rfl rfl (by decide),
    backlog_bound.2 optsCex epLocalCex 0 0 (PassiveSocketM.new epLocalCex 0 0) .init⟩

/-! ## C1: handshake-ACK completion -/

/-- C1 counterexample.  A reachable in-flight accept created by a SYN whose
window-scale option is 16 makes `receive` of the matching handshake ACK
panic at the checked shift instead of completing the handshake or returning
a well-typed error. -/
theorem passive_ack_completion_cex :
    PassiveReachable optsCex epLocalCex 5 0 c1State ∧
      ackHdrCex.ack = true ∧
      ackHdrCex.ack_num = (c1Entry.local_isn + 1) % 4294967296 ∧
      PassiveSocketM.receive optsCex c1State 0xC0A80102 ackHdrCex = .panicked := by
  refine ⟨.step (PassiveSocketM.new epLocalCex 5 0) c1State .init
    (.receiveOk (PassiveSocketM.new epLocalCex 5 0) 0xC0A80102 synHdr16Cex c1State rfl),
    rfl, by decide, rfl⟩

/-- C1 amended.  For an ACK segment delivered for an in-flight accept, when
the shift of the 16-bit advertised window by the SYN-negotiated scale cannot
overflow (remote scale below 16, configured scale below 32): a matching
acknowledgment number (`local_isn + 1`) removes the in-flight entry, pushes
an ESTABLISHED control block with `RCV.NXT = remote_isn + 1` and
`SND.UNA = local_isn + 1`, and wakes a registered accept waker; a
non-matching acknowledgment number returns a bad-message error with the
state unchanged. -/
theorem passive_ack_completion (opts : TcpOptionsM) (s : PassiveSocketM)
    (srcAddr : Nat) (h : TcpHeaderM) (entry : InflightAcceptM)
    (hep : (⟨srcAddr, h.src_port⟩ : Endpoint) ∉ s.endpoints)
    (hin : lookupInflight s.inflight ⟨srcAddr, h.src_port⟩ = some entry)
    (hack : h.ack = true)
    (hscale : ∀ w, entry.remote_window_scale = some w →
      w < 16 ∧ opts.window_scale < 32) :
    (h.ack_num = (entry.local_isn + 1) % 4294967296 →
      ∃ cb s', PassiveSocketM.receive opts s srcAddr h = .ok s' ∧
        s'.inflight = removeInflight s.inflight ⟨srcAddr, h.src_port⟩ ∧
        s'.ready = s.ready ++ [.ok cb] ∧
        s'.endpoints = cb.remote :: s.endpoints ∧
        cb.state = .established ∧
        cb.rcv_nxt = (entry.remote_isn + 1) % 4294967296 ∧
        cb.snd_una = (entry.local_isn + 1) % 4294967296 ∧
        cb.remote = (⟨srcAddr, h.src_port⟩ : Endpoint) ∧
        s'.wokeCount = s.wokeCount + (if s.readyWaker then 1 else 0)) ∧
    (h.ack_num ≠ (entry.local_isn + 1) % 4294967296 →
      PassiveSocketM.receive opts s srcAddr h =
        .err ⟨EBADMSG, "invalid SYN+ACK seq num"⟩ s) := by
  unfold PassiveSocketM.receive
  dsimp only []
  rw [if_neg hep, hin]
  dsimp only []
  rw [hack]
  simp only [Bool.not_true]
  rw [if_neg Bool.false_ne_true]
  refine ⟨fun hnum => ?_, fun hne => ?_⟩
  · rw [if_neg (by simp [hnum])]
    cases hw : entry.remote_window_scale with
    | none =>
      dsimp only []
      simp only [checkedShl]
      rw [if_pos (by omega : (0:Nat) < 16), if_pos (by omega : (0:Nat) < 32)]
      dsimp only []
      exact ⟨_, _, rfl, rfl, rfl, rfl, rfl, rfl, rfl, rfl, rfl⟩
    | some w =>
      obtain ⟨hw16, hws32⟩ := hscale w hw
      dsimp only []
      simp only [checkedShl]
      rw [if_pos hw16, if_pos hws32]
      dsimp only []
      exact ⟨_, _, rfl, rfl, rfl, rfl, rfl, rfl, rfl, rfl, rfl⟩
  · rw [if_pos hne]

/-- Witness for the amended C1: the matching ACK at a concrete reachable
in-flight accept (no window-scale option) completes the handshake. -/
theorem passive_ack_completion_witness :
    ∃ cb s', PassiveSocketM.receive optsCex c3State1 0xC0A80102 ackHdrCex = .ok s' ∧
      s'.inflight = removeInflight c3State1.inflight ⟨0xC0A80102, ackHdrCex.src_port⟩ ∧
      s'.ready = c3State1.ready ++ [.ok cb] ∧
      s'.endpoints = cb.remote :: c3State1.endpoints ∧
      cb.state = .established ∧
      cb.rcv_nxt = (c3Entry.remote_isn + 1) % 4294967296 ∧
      cb.snd_una = (c3Entry.local_isn + 1) % 4294967296 ∧
      cb.remote = (⟨0xC0A80102, ackHdrCex.src_port⟩ : Endpoint) ∧
      s'.wokeCount = c3State1.wokeCount + (if c3State1.readyWaker then 1 else 0) :=
  (passive_ack_completion optsCex c3State1 0xC0A80102 ackHdrCex c3Entry
    (by decide) (by decide) rfl
    (fun w hw => by
      rw [show c3Entry.remote_window_scale = none from rfl] at hw
      exact Option.noConfusion hw)).1 (by decide)

/-! ## C10: remotely triggerable shift-overflow panic -/

/-- C10.  A window-scale value of 16 or more recorded in an in-flight accept
makes `receive` of the matching handshake ACK panic at the
`checked_shl(..).expect(..)` on the 16-bit advertised window instead of
returning a well-typed error; and the SYN path records whatever window-scale
option value the remote peer supplies, so the panic is triggerable by a
remote peer. -/
theorem window_scale_shift_panic :
    (∀ (opts : TcpOptionsM) (s : PassiveSocketM) (srcAddr : Nat) (h : TcpHeaderM)
        (entry : InflightAcceptM) (w : Nat),
        (⟨srcAddr, h.src_port⟩ : Endpoint) ∉ s.endpoints →
        lookupInflight s.inflight ⟨srcAddr, h.src_port⟩ = some entry →
        entry.remote_window_scale = some w → 16 ≤ w →
        h.ack = true → h.ack_num = (entry.local_isn + 1) % 4294967296 →
        PassiveSocketM.receive opts s srcAddr h = .panicked) ∧
    (∀ (opts : TcpOptionsM) (s : PassiveSocketM) (srcAddr : Nat) (h : TcpHeaderM)
        (w : Nat),
        (⟨srcAddr, h.src_port⟩ : Endpoint) ∉ s.endpoints →
        lookupInflight s.inflight ⟨srcAddr, h.src_port⟩ = none →
        h.syn = true → h.ack = false → h.rst = false →
        s.inflight.length + s.ready.length < s.max_backlog →
        (optionsScan h.options).1 = some w →
        ∃ s', PassiveSocketM.receive opts s srcAddr h = .ok s' ∧
          lookupInflight s'.inflight ⟨srcAddr, h.src_port⟩ =
            some ⟨(IsnGenerator.generate ⟨s.isnNonce, s.isnCounter⟩ s.localEp
                ⟨srcAddr, h.src_port⟩).1,
              h.seq_num, h.window_size, some w, (optionsScan h.options).2, false⟩) := by
  constructor
  · intro opts s srcAddr h entry w hep hin hw hw16 hack hnum
    unfold PassiveSocketM.receive
    dsimp only []
    rw [if_neg hep, hin]
    dsimp only []
    rw [hack]
    simp only [Bool.not_true]
    rw [if_neg Bool.false_ne_true, if_neg (by simp [hnum]), hw]
    dsimp only []
    simp only [checkedShl]
    rw [if_neg (by omega)]
  · intro opts s srcAddr h w hep hlook hsyn hack hrst hbl hscan
    unfold PassiveSocketM.receive
    dsimp only []
    rw [if_neg hep, hlook]
    dsimp only []
    rw [hsyn, hack, hrst]
    simp only [Bool.not_true, Bool.or_false, Bool.false_or, Bool.or_self]
    rw [if_neg Bool.false_ne_true, if_neg (by omega)]
    refine ⟨_, rfl, ?_⟩
    show lookupInflight (s.inflight ++ [((⟨srcAddr, h.src_port⟩ : Endpoint), _)])
      ⟨srcAddr, h.src_port⟩ = _
    rw [lookupInflight_append_self _ _ _ hlook, hscan]

/-- Witness for C10 at the concrete reachable scale-16 in-flight accept. -/
theorem window_scale_shift_panic_witness :
    PassiveSocketM.receive optsCex c1State 0xC0A80102 ackHdrCex = .panicked :=
  window_scale_shift_panic.1 optsCex c1State 0xC0A80102 ackHdrCex c1Entry 16
    (by decide) (by decide) (by decide) (by decide) rfl (by decide)

/-! ## C7: per-endpoint uniqueness and the ready-endpoint drop -/

/-- C7.  At every reachable state the in-flight accepts have pairwise
distinct remote endpoints and the completed (not yet accepted) control
blocks in the ready queue have pairwise distinct remote endpoints; and any
segment arriving from a remote endpoint whose control block is still in the
ready queue is silently dropped: `receive` returns success with the state
unchanged. -/
theorem passive_uniqueness :
    (∀ (opts : TcpOptionsM) (localEp : Endpoint) (backlog nonce : Nat)
        (s : PassiveSocketM),
        PassiveReachable opts localEp backlog nonce s →
        (s.inflight.map Prod.fst).Nodup ∧ (okRemotes s.ready).Nodup) ∧
    (∀ (opts : TcpOptionsM) (localEp : Endpoint) (backlog nonce : Nat)
        (s : PassiveSocketM) (srcAddr : Nat) (h : TcpHeaderM),
        PassiveReachable opts localEp backlog nonce s →
        (⟨srcAddr, h.src_port⟩ : Endpoint) ∈ okRemotes s.ready →
        PassiveSocketM.receive opts s srcAddr h = .ok s) := by
  constructor
  · intro opts localEp backlog nonce s hreach
    obtain ⟨h1, h2, _, _⟩ := reachable_inv opts localEp backlog nonce s hreach
    exact ⟨h1, h2⟩
  · intro opts localEp backlog nonce s srcAddr h hreach hmem
    unfold PassiveSocketM.receive
    dsimp only []
    rw [if_pos ((reachable_inv opts localEp backlog nonce s hreach).2.2.1 _ hmem)]

/-- Witness for C7 at the concrete reachable state with one completed
control block in the ready queue. -/
theorem passive_uniqueness_witness :
    ((c7State2.inflight.map Prod.fst).Nodup ∧ (okRemotes c7State2.ready).Nodup) ∧
      PassiveSocketM.receive optsCex c7State2 0xC0A80102 synHdrCex = .ok c7State2 := by
  have hreach : PassiveReachable optsCex epLocalCex 1 0 c7State2 :=
    .step c3State1 c7State2
      (.step c3State0 c3State1 .init
        (.receiveOk c3State0 0xC0A80102 synHdrCex c3State1 rfl))
      (.receiveOk c3State1 0xC0A80102 ackHdrCex c7State2 rfl)
  exact ⟨passive_uniqueness.1 optsCex epLocalCex 1 0 c7State2 hreach,
    passive_uniqueness.2 optsCex epLocalCex 1 0 c7State2 0xC0A80102 synHdrCex hreach
      (by decide)⟩

/-! ## C4: the SYN+ACK retry trace -/

theorem bgRun_ne_nil (opts : TcpOptionsM) (localEp remoteEp : Endpoint)
    (local_isn remote_isn : Nat) (oracle : Nat → Option Nat) (i fuel : Nat) :
    bgRun opts localEp remoteEp local_isn remote_isn oracle i fuel ≠ [] := by
  cases fuel with
  | zero => simp [bgRun]
  | succ n =>
    cases ho : oracle i with
    | none => simp [bgRun, ho]
    | some m => simp [bgRun, ho]

theorem endsWith_cons (e a : BgEvent) (l : List BgEvent) (hl : l ≠ []) :
    endsWith e (a :: l) = endsWith e l := by
  cases l with
  | nil => exact absurd rfl hl
  | cons b rest => rfl

theorem bgRun_count (opts : TcpOptionsM) (localEp remoteEp : Endpoint)
    (local_isn remote_isn : Nat) (oracle : Nat → Option Nat) :
    ∀ (fuel i : Nat),
      transmitCount (bgRun opts localEp remoteEp local_isn remote_isn oracle i fuel) ≤
        fuel := by
  intro fuel
  induction fuel with
  | zero => intro i; simp [bgRun, transmitCount]
  | succ n ih =>
    intro i
    cases ho : oracle i with
    | none =>
      simp only [bgRun, ho, transmitCount]
      exact Nat.le_succ_of_le (ih (i + 1))
    | some m =>
      simp only [bgRun, ho, transmitCount]
      exact Nat.succ_le_succ (ih (i + 1))

theorem bgRun_wf (opts : TcpOptionsM) (localEp remoteEp : Endpoint)
    (local_isn remote_isn : Nat) (oracle : Nat → Option Nat) :
    ∀ (fuel i : Nat),
      transmitsWellFormed local_isn remote_isn
        (bgRun opts localEp remoteEp local_isn remote_isn oracle i fuel) = true := by
  intro fuel
  induction fuel with
  | zero => intro i; simp [bgRun, transmitsWellFormed]
  | succ n ih =>
    intro i
    cases ho : oracle i with
    | none =>
      simp only [bgRun, ho, transmitsWellFormed]
      exact ih (i + 1)
    | some m =>
      simp only [bgRun, ho, transmitsWellFormed, synAckHeader, TcpHeaderM.new,
        TcpHeaderM.pushOption, beq_self_eq_true, Bool.and_true, Bool.true_and,
        Bool.and_self]
      exact ih (i + 1)

theorem bgRun_waits (opts : TcpOptionsM) (localEp remoteEp : Endpoint)
    (local_isn remote_isn : Nat) (oracle : Nat → Option Nat) :
    ∀ (fuel i : Nat),
      waitsAfterTransmits opts.handshake_timeout
        (bgRun opts localEp remoteEp local_isn remote_isn oracle i fuel) = true := by
  intro fuel
  induction fuel with
  | zero => intro i; simp [bgRun, waitsAfterTransmits]
  | succ n ih =>
    intro i
    cases ho : oracle i with
    | none =>
      simp only [bgRun, ho, waitsAfterTransmits]
      exact ih (i + 1)
    | some m =>
      simp only [bgRun, ho, waitsAfterTransmits, beq_self_eq_true, Bool.true_and]
      exact ih (i + 1)

theorem bgRun_ends (opts : TcpOptionsM) (localEp remoteEp : Endpoint)
    (local_isn remote_isn : Nat) (oracle : Nat → Option Nat) :
    ∀ (fuel i : Nat),
      endsWith (.pushTimeoutErr ⟨ETIMEDOUT, "handshake timeout"⟩)
        (bgRun opts localEp remoteEp local_isn remote_isn oracle i fuel) = true := by
  intro fuel
  induction fuel with
  | zero =>
    intro i
    simp [bgRun, endsWith]
  | succ n ih =>
    intro i
    cases ho : oracle i with
    | none =>
      simp only [bgRun, ho]
      rw [endsWith_cons _ _ _
        (bgRun_ne_nil opts localEp remoteEp local_isn remote_isn oracle (i + 1) n)]
      exact ih (i + 1)
    | some m =>
      simp only [bgRun, ho]
      rw [endsWith_cons _ _ _ (by simp), endsWith_cons _ _ _ (by simp),
        endsWith_cons _ _ _
          (bgRun_ne_nil opts localEp remoteEp local_isn remote_isn oracle (i + 1) n)]
      exact ih (i + 1)

/-- C4.  The SYN+ACK background trace transmits at most `handshake_retries`
SYN+ACK segments, each carrying SYN and ACK with sequence number
`local_isn` and acknowledgment number `remote_isn + 1`, each immediately
followed by a wait of `handshake_timeout`; the trace ends by pushing the
handshake-timeout error; and completing a still-pending in-flight accept
through `bgFire` appends exactly that timeout error to the ready queue. -/
theorem synack_retry_trace (opts : TcpOptionsM) (localEp remoteEp : Endpoint)
    (local_isn remote_isn : Nat) (oracle : Nat → Option Nat) :
    transmitCount (backgroundTrace opts localEp remoteEp local_isn remote_isn oracle) ≤
      opts.handshake_retries ∧
    transmitsWellFormed local_isn remote_isn
      (backgroundTrace opts localEp remoteEp local_isn remote_isn oracle) = true ∧
    waitsAfterTransmits opts.handshake_timeout
      (backgroundTrace opts localEp remoteEp local_isn remote_isn oracle) = true ∧
    endsWith (.pushTimeoutErr ⟨ETIMEDOUT, "handshake timeout"⟩)
      (backgroundTrace opts localEp remoteEp local_isn remote_isn oracle) = true ∧
    (∀ (s : PassiveSocketM) (r : Endpoint),
      (bgFire s r).map PassiveSocketM.ready =
        (bgFire s r).map (fun _ => s.ready ++ [.error ⟨ETIMEDOUT, "handshake timeout"⟩])) := by
  refine ⟨bgRun_count opts localEp remoteEp local_isn remote_isn oracle _ 0,
    bgRun_wf opts localEp remoteEp local_isn remote_isn oracle _ 0,
    bgRun_waits opts localEp remoteEp local_isn remote_isn oracle _ 0,
    bgRun_ends opts localEp remoteEp local_isn remote_isn oracle _ 0, ?_⟩
  intro s r
  unfold bgFire
  cases hlook : lookupInflight s.inflight r with
  | none => rfl
  | some entry =>
    dsimp only []
    by_cases hd : entry.bgDone = true
    · rw [if_pos hd]
      rfl
    · rw [if_neg hd]
      rfl

end InetStack
